import Mathlib

/-!
Verification development for the brewtools repository.

The definitions below are shallow embeddings of the Python sources:
`units.py` (the `Gravity` concentration value and its text parsing),
`runnings.py` (the blend planner `main`, its `validate`), and
`gravity.py` (the earlier planner variant and its `validate`).
Python floats are modelled by exact rationals; Python's total-function
failure modes (exceptions / `sys.exit`) are modelled by `Option` and by
explicit result constructors.
-/

namespace Brewtools

/-- `units.py` / `gravity.py` class `Gravity`: stores `specific_gravity`.
The constructor `__init__(self, gravity)` sets `specific_gravity = 1 + gravity/1000`. -/
structure Gravity where
  specific_gravity : ℚ
deriving DecidableEq, Inhabited

/-- `Gravity.__init__`: `specific_gravity = 1 + gravity/1000`. -/
def Gravity.ofPoints (gravity : ℚ) : Gravity :=
  ⟨1 + gravity / 1000⟩

/-- `Gravity.from_brix`: `cls(b*4)`. -/
def Gravity.from_brix (b : ℚ) : Gravity :=
  Gravity.ofPoints (b * 4)

/-- `Gravity.from_sg`: `cls((sg - 1) * 1000 if 1 < sg < 1.2 else sg)`. -/
def Gravity.from_sg (sg : ℚ) : Gravity :=
  Gravity.ofPoints (if 1 < sg ∧ sg < 1.2 then (sg - 1) * 1000 else sg)

/-- `Gravity.gravity_pts`: `(specific_gravity - 1) * 1000`. -/
def Gravity.gravity_pts (g : Gravity) : ℚ :=
  (g.specific_gravity - 1) * 1000

/-- `Gravity.brix`: `gravity_pts / 4`. -/
def Gravity.brix (g : Gravity) : ℚ :=
  g.gravity_pts / 4

/-- `Gravity.__lt__`: compares `specific_gravity`. -/
instance : LT Gravity :=
  ⟨fun a b => a.specific_gravity < b.specific_gravity⟩

instance (a b : Gravity) : Decidable (a < b) :=
  inferInstanceAs (Decidable (a.specific_gravity < b.specific_gravity))

/-- `corrected(x)`: `x / 1.04` (refractometer wort correction). -/
def corrected (x : ℚ) : ℚ :=
  x / 1.04

/-! ### Text parsing of gravity readings

Model of `re.match(r'(?P<quantity>\d(\.\d+)?)(?P<correction>[c|u])?$', text.lower())`
from `units.py` `Gravity.from_text` (identical regex in `gravity.py`
`readinginputparser`).  The quantity group is a SINGLE digit optionally
followed by a decimal point and one or more digits; the correction group is a
single character of the class `[c|u]` (which contains the literal bar). -/

/-- Numeric value of a decimal digit character. -/
def digitVal (c : Char) : ℕ :=
  c.toNat - '0'.toNat

/-- Value of `float("<d>.<ds>")` for one integer digit `d` and fraction digits `ds`. -/
def decimalValue (d : Char) (ds : List Char) : ℚ :=
  (digitVal d : ℚ) + (ds.foldl (fun acc c => acc * 10 + (digitVal c : ℚ)) 0) / (10 : ℚ) ^ ds.length

/-- Match of the optional `(?P<correction>[c|u])?` group followed by `$`. -/
def matchCorrection (cs : List Char) : Option (Option Char) :=
  match cs with
  | [] => some none
  | [c] => if c = 'c' ∨ c = '|' ∨ c = 'u' then some (some c) else none
  | _ => none

/-- Match of the whole gravity regex against a (lower-cased) character list.
Returns the parsed quantity and the optional correction character, or `none`
when `re.match` fails. -/
def matchGravity (cs : List Char) : Option (ℚ × Option Char) :=
  match cs with
  | [] => none
  | d :: rest =>
    if d.isDigit then
      match rest with
      | '.' :: r2 =>
        let ds := r2.takeWhile Char.isDigit
        let r3 := r2.dropWhile Char.isDigit
        if ds = [] then none
        else (matchCorrection r3).map (fun co => (decimalValue d ds, co))
      | _ => (matchCorrection rest).map (fun co => (decimalValue d [], co))
    else none

/-- Lines 43-46 of `units.py` `from_text`: classify the parsed quantity as a
specific-gravity reading (below 1.5) or a Brix reading (at or above 1.5). -/
def rawGravity (q : ℚ) : Gravity :=
  if q < 1.5 then Gravity.from_sg q else Gravity.from_brix q

/-- `units.py` `Gravity.from_text(text, correction)`: `none` models the
`ValueError` raised on a failed regex match.  `gravity.py`'s
`readinginputparser` is the same function. -/
def Gravity.from_text (text : String) (correction : Char) : Option Gravity :=
  match matchGravity (text.data.map Char.toLower) with
  | none => none
  | some (q, copt) =>
    let gravity_correction := copt.getD correction
    let gravity := rawGravity q
    some (if gravity_correction = 'u' then Gravity.from_sg (corrected gravity.gravity_pts) else gravity)

/-! ### Worts and Python list helpers -/

/-- `WortData = namedtuple('WortData', ['volume', 'gravity'])`. -/
structure WortData where
  volume : ℚ
  gravity : Gravity
deriving DecidableEq, Inhabited

/-- Python list indexing `l[i]`, including negative indices counting from the
end; out-of-range access (an `IndexError` in Python) yields `default`. -/
def pyGet {α : Type} [Inhabited α] (l : List α) (i : ℤ) : α :=
  let j : ℤ := if i < 0 then (l.length : ℤ) + i else i
  if 0 ≤ j then l.getD j.toNat default else default

/-- Python slicing `l[:i]`, including a negative bound counting from the end. -/
def pySlice {α : Type} (l : List α) (i : ℤ) : List α :=
  let j : ℤ := if i < 0 then (l.length : ℤ) + i else i
  l.take j.toNat

/-- `itertools.accumulate`: running sums of `xs` starting from `acc`
(the list of `acc + xs[0] + ... + xs[j]` for each `j`). -/
def pyAccumulate (xs : List ℚ) (acc : ℚ) : List ℚ :=
  match xs with
  | [] => []
  | x :: rest => (acc + x) :: pyAccumulate rest (acc + x)

/-! ### The `runnings.py` planner (`main`, lines 75-112) -/

/-- The planner inputs of `runnings.py` `main` after argument parsing and
validation; `runnings` is the lot list, already sorted when the `-u` flag is
absent. -/
structure PlanArgs where
  runnings : List WortData
  target_OG : Gravity
  preboil_volume : ℚ
  final_volume : ℚ
  boiloff_rate : ℚ
  boil_duration : ℚ
deriving DecidableEq

/-- The sugar contribution `w.gravity.gravity_pts * w.volume` of one lot. -/
def wortSugar (w : WortData) : ℚ :=
  w.gravity.gravity_pts * w.volume

/-- `total_sugars = [0] + list(accumulate([w.gravity.gravity_pts * w.volume for w in runnings]))`. -/
def totalSugars (ws : List WortData) : List ℚ :=
  0 :: pyAccumulate (ws.map wortSugar) 0

/-- `total_volumes = [0] + list(accumulate([w.volume for w in runnings]))`. -/
def totalVolumes (ws : List WortData) : List ℚ :=
  0 :: pyAccumulate (ws.map WortData.volume) 0

/-- `needed_sugar = args.target_OG.gravity_pts * args.final_volume`. -/
def neededSugar (a : PlanArgs) : ℚ :=
  a.target_OG.gravity_pts * a.final_volume

/-- Line 93: `last_running = total_sugars.index(next(filter(lambda t: t >= needed_sugar, total_sugars))) - 1`;
`none` models the `StopIteration` raised when no element qualifies. -/
def lastRunning (a : PlanArgs) : Option ℤ :=
  ((totalSugars a.runnings).find? (fun t => decide (neededSugar a ≤ t))).map
    (fun v => ((totalSugars a.runnings).indexOf v : ℤ) - 1)

/-- Lines 94-95: the interpolation fraction of the crossing lot. -/
def lastRunningFraction (a : PlanArgs) (lr : ℤ) : ℚ :=
  (neededSugar a - pyGet (totalSugars a.runnings) lr) /
    (pyGet (totalSugars a.runnings) (lr + 1) - pyGet (totalSugars a.runnings) lr)

/-- Line 96: `last_running_volume = last_running_fraction * args.runnings[last_running].volume`. -/
def lastRunningVolume (a : PlanArgs) (lr : ℤ) : ℚ :=
  lastRunningFraction a lr * (pyGet a.runnings lr).volume

/-- Line 97: `running_volume = total_volumes[last_running] + last_running_volume`. -/
def runningVolume (a : PlanArgs) (lr : ℤ) : ℚ :=
  pyGet (totalVolumes a.runnings) lr + lastRunningVolume a lr

/-- Line 105: `volumes = [w.volume for w in args.runnings[:last_running]] + [last_running_volume]`. -/
def planVolumes (a : PlanArgs) (lr : ℤ) : List ℚ :=
  (pySlice a.runnings lr).map WortData.volume ++ [lastRunningVolume a lr]

/-- The observable outcome of one `runnings.py` planning run: the
infeasibility abort (lines 87-91), the capacity abort (lines 99-103), or a
plan with its reported top-off water (lines 105-112). -/
inductive PlanResult where
  | infeasible (batch_size : ℚ)
  | capacity (extra_boil new_boil : ℚ)
  | plan (volumes : List ℚ) (topoff_water : ℚ)
deriving DecidableEq

/-- `runnings.py` `main`, lines 82-112 (the planning part, after parsing and
sorting).  `none` models the unreachable `StopIteration` crash of line 93. -/
def runningsMain (a : PlanArgs) : Option PlanResult :=
  let ts := totalSugars a.runnings
  if ts.getLastD 0 < neededSugar a then
    some (.infeasible (ts.getLastD 0 / a.target_OG.gravity_pts))
  else
    match lastRunning a with
    | none => none
    | some lr =>
      if a.preboil_volume < runningVolume a lr then
        some (.capacity ((runningVolume a lr - a.preboil_volume) / a.boiloff_rate * 60)
          (a.boil_duration + (runningVolume a lr - a.preboil_volume) / a.boiloff_rate * 60))
      else
        some (.plan (planVolumes a lr) (a.preboil_volume - (planVolumes a lr).sum))

/-! ### The `gravity.py` planner variant (`main`, lines 109-142) -/

/-- The planner inputs of `gravity.py` `main` after parsing and validation. -/
structure GravArgs where
  runnings : List WortData
  target_OG : Gravity
  preboil_volume : ℚ
  postboil_volume : ℚ
  boiloff_rate : ℚ
  boil_duration : ℚ
deriving DecidableEq

/-- Line 113: `preboil_gravity = Gravity.from_sg(args.target_OG.gravity_pts * args.postboil_volume / args.preboil_volume)`. -/
def preboilGravity (a : GravArgs) : Gravity :=
  Gravity.from_sg (a.target_OG.gravity_pts * a.postboil_volume / a.preboil_volume)

/-- Line 115: `total_gravities = [0] + list(accumulate([w.gravity.gravity_pts * w.volume for w in runnings]))`. -/
def totalGravities (a : GravArgs) : List ℚ :=
  0 :: pyAccumulate (a.runnings.map wortSugar) 0

/-- Line 116: `max_gravity = Gravity.from_sg(total_gravities[-1] / args.preboil_volume)`. -/
def maxGravity (a : GravArgs) : Gravity :=
  Gravity.from_sg ((totalGravities a).getLastD 0 / a.preboil_volume)

/-- Lines 130-131: the fractional volume `u` taken from the crossing lot,
for crossing position `lr` (the variant's `last_running`). -/
def gravityU (a : GravArgs) (lr : ℤ) : ℚ :=
  ((preboilGravity a).gravity_pts * a.preboil_volume - pyGet (totalGravities a) (lr - 1)) /
    (pyGet a.runnings (lr - 1)).gravity.gravity_pts

/-- Lines 132-134: full volumes of the lots before the crossing one, the
fractional volume `u`, then a zero entry for every unused lot. -/
def gravityVolumes (a : GravArgs) (lr : ℤ) : List ℚ :=
  (pySlice a.runnings (lr - 1)).map WortData.volume ++ [gravityU a lr] ++
    List.replicate (a.runnings.length - lr.toNat) 0

/-- The observable outcome of one `gravity.py` planning run: the infeasibility
`ValueError` of lines 119-121 (carrying the reported maximum possible gravity),
or the displayed plan: the zero-filtered volume list of line 136 together with
the line-140 `water_volume`. -/
inductive GravResult where
  | infeasible (max_possible : Gravity)
  | plan (volumes : List ℚ) (water_volume : ℚ)
deriving DecidableEq

/-- `gravity.py` `main`, lines 115-142 (after parsing and sorting).  `none`
models the unreachable `StopIteration` crash of lines 123-128.  The displayed
volumes pass through `filter(None, volumes)`, which drops every zero entry. -/
def gravityMain (a : GravArgs) : Option GravResult :=
  let ts := totalGravities a
  if maxGravity a < preboilGravity a then
    some (.infeasible (Gravity.from_sg (ts.getLastD 0 / a.postboil_volume)))
  else
    match ts.find? (fun t => decide (preboilGravity a < Gravity.from_sg (t / a.preboil_volume))) with
    | none => none
    | some v =>
      let lr : ℤ := ((ts.indexOf v : ℕ) : ℤ)
      some (.plan ((gravityVolumes a lr).filter (fun v => decide (v ≠ 0)))
        (a.preboil_volume - (gravityVolumes a lr).sum))

/-! ### The pre-planning volume validation (`validate` in both variants) -/

/-- The observable outcome of `validate`: the two `ValueError`s, or the pair
(process-start volume, final volume) left in `args` afterwards. -/
inductive ValidateResult where
  | conflict
  | missing
  | ok (preboil_volume final_volume : ℚ)
deriving DecidableEq

/-- Python truthiness of an optional float argument: `None` and `0.0` are falsy. -/
def truthy (x : Option ℚ) : Bool :=
  match x with
  | none => false
  | some v => decide (v ≠ 0)

/-- `runnings.py` `validate` (lines 33-44): boiloff/shrinkage model relating
pre-boil and final volumes. -/
def validateRunnings (preboil_volume final_volume : Option ℚ)
    (boiloff_rate boil_duration shrinkage_pct : ℚ) : ValidateResult :=
  let boiloff := boiloff_rate * boil_duration / 60
  let shrinkage_factor := 1 - shrinkage_pct / 100
  if truthy preboil_volume && truthy final_volume then
    if (preboil_volume.getD 0 - boiloff) * shrinkage_factor ≠ final_volume.getD 0 then .conflict
    else .ok (preboil_volume.getD 0) (final_volume.getD 0)
  else if truthy preboil_volume then
    .ok (preboil_volume.getD 0) ((preboil_volume.getD 0 - boiloff) * shrinkage_factor)
  else if truthy final_volume then
    .ok (final_volume.getD 0 / shrinkage_factor + boiloff) (final_volume.getD 0)
  else .missing

/-- `gravity.py` `validate` (lines 80-90): boiloff-only model relating
pre-boil and post-boil volumes. -/
def validateGravity (preboil_volume postboil_volume : Option ℚ)
    (boiloff_rate boil_duration : ℚ) : ValidateResult :=
  let boiloff := boiloff_rate * boil_duration / 60
  if truthy preboil_volume && truthy postboil_volume then
    if preboil_volume.getD 0 - boiloff ≠ postboil_volume.getD 0 then .conflict
    else .ok (preboil_volume.getD 0) (postboil_volume.getD 0)
  else if truthy preboil_volume then
    .ok (preboil_volume.getD 0) (preboil_volume.getD 0 - boiloff)
  else if truthy postboil_volume then
    .ok (postboil_volume.getD 0 + boiloff) (postboil_volume.getD 0)
  else .missing

example : totalSugars [⟨3, Gravity.ofPoints 20⟩, ⟨2, Gravity.ofPoints 10⟩] = [0, 60, 80] := by
  norm_num [totalSugars, pyAccumulate, wortSugar, Gravity.gravity_pts, Gravity.ofPoints]

example :
    runningsMain ⟨[⟨3, Gravity.ofPoints 20⟩, ⟨2, Gravity.ofPoints 10⟩],
      Gravity.ofPoints 14, 11/2, 5, 157/200, 60⟩ =
    some (.plan [3, 1] (3/2)) := by
  norm_num [runningsMain, totalSugars, totalVolumes, pyAccumulate, wortSugar,
    Gravity.gravity_pts, Gravity.ofPoints, neededSugar, lastRunning, lastRunningFraction,
    lastRunningVolume, runningVolume, planVolumes, pyGet, pySlice, List.find?,
    List.indexOf, List.findIdx, List.findIdx.go, cond_eq_if, beq_iff_eq, List.getLastD,
    List.getD]
  simp
  norm_num

/-! ### Helper lemmas about the accumulation and scan primitives -/

lemma pyAccumulate_length (xs : List ℚ) (acc : ℚ) :
    (pyAccumulate xs acc).length = xs.length := by
  induction xs generalizing acc with
  | nil => rfl
  | cons x rest ih => simp [pyAccumulate, ih]

lemma pyAccumulate_getD (xs : List ℚ) (acc : ℚ) (j : ℕ) (hj : j < xs.length) :
    (pyAccumulate xs acc).getD j 0 = acc + (xs.take (j + 1)).sum := by
  induction xs generalizing acc j with
  | nil => simp at hj
  | cons x rest ih =>
    cases j with
    | zero => simp [pyAccumulate]
    | succ j' =>
      have hj' : j' < rest.length := by simpa using hj
      rw [show pyAccumulate (x :: rest) acc = (acc + x) :: pyAccumulate rest (acc + x) from rfl,
        List.getD_cons_succ, ih (acc + x) j' hj', List.take_succ_cons, List.sum_cons]
      ring

lemma cum_length (xs : List ℚ) : (0 :: pyAccumulate xs 0).length = xs.length + 1 := by
  simp [pyAccumulate_length]

lemma cum_getD (xs : List ℚ) (j : ℕ) (hj : j ≤ xs.length) :
    (0 :: pyAccumulate xs 0).getD j 0 = (xs.take j).sum := by
  cases j with
  | zero => simp
  | succ j' =>
    have hj' : j' < xs.length := by omega
    rw [List.getD_cons_succ, pyAccumulate_getD xs 0 j' hj', zero_add]

lemma pyAccumulate_getLastD (xs : List ℚ) (acc d : ℚ) (h : xs ≠ []) :
    (pyAccumulate xs acc).getLastD d = acc + xs.sum := by
  induction xs generalizing acc d with
  | nil => simp at h
  | cons x rest ih =>
    by_cases hr : rest = []
    · subst hr
      simp [pyAccumulate]
    · rw [show pyAccumulate (x :: rest) acc = (acc + x) :: pyAccumulate rest (acc + x) from rfl,
        List.getLastD_cons, ih (acc + x) _ hr, List.sum_cons]
      ring

lemma cum_getLastD (xs : List ℚ) : (0 :: pyAccumulate xs 0).getLastD 0 = xs.sum := by
  rw [List.getLastD_cons]
  by_cases h : xs = []
  · subst h
    simp [pyAccumulate]
  · rw [pyAccumulate_getLastD xs 0 0 h, zero_add]

lemma sum_take_mono (xs : List ℚ) (h0 : ∀ x ∈ xs, 0 ≤ x) {i j : ℕ} (hij : i ≤ j) :
    (xs.take i).sum ≤ (xs.take j).sum := by
  have hsplit : xs.take j = xs.take i ++ (xs.drop i).take (j - i) := by
    rw [← List.take_add]
    congr 1
    omega
  rw [hsplit, List.sum_append]
  have hnn : 0 ≤ ((xs.drop i).take (j - i)).sum :=
    List.sum_nonneg (fun x hx => h0 x (List.mem_of_mem_drop (List.mem_of_mem_take hx)))
  linarith

/-- The first element of `l` satisfying `p` sits at the first index satisfying
`p`; `index` of that element recovers that index (models the
`total_sugars.index(next(filter(...)))` combination). -/
lemma find?_min_spec (p : ℚ → Bool) (l : List ℚ) (k : ℕ) (hk : k < l.length)
    (hp : p (l.getD k 0) = true) (hmin : ∀ j, j < k → p (l.getD j 0) = false) :
    l.find? p = some (l.getD k 0) ∧ l.indexOf (l.getD k 0) = k := by
  induction l generalizing k with
  | nil => simp at hk
  | cons x t ih =>
    cases k with
    | zero =>
      rw [List.getD_cons_zero] at hp ⊢
      exact ⟨List.find?_cons_of_pos t hp, List.indexOf_cons_self x t⟩
    | succ k' =>
      have hx : p x = false := by
        have := hmin 0 (Nat.succ_pos k')
        simpa using this
      have hk' : k' < t.length := by simpa using hk
      have hp' : p (t.getD k' 0) = true := by simpa using hp
      have hmin' : ∀ j, j < k' → p (t.getD j 0) = false := fun j hj => by
        have := hmin (j + 1) (by omega)
        simpa using this
      obtain ⟨hf, hi⟩ := ih k' hk' hp' hmin'
      have hne : x ≠ t.getD k' 0 := by
        intro he
        rw [← he, hx] at hp'
        exact absurd hp' (by simp)
      refine ⟨?_, ?_⟩
      · rw [List.getD_cons_succ, List.find?_cons_of_neg t (by simp [hx]), hf]
      · rw [List.getD_cons_succ, List.indexOf_cons_ne t hne, hi]

/-- Inversion: a successful `find?` locates the first index satisfying `p`,
and `index` of the found value recovers that index. -/
lemma find?_inv (p : ℚ → Bool) (l : List ℚ) (v : ℚ) (h : l.find? p = some v) :
    ∃ j, j < l.length ∧ l.getD j 0 = v ∧ p v = true ∧
      (∀ i, i < j → p (l.getD i 0) = false) ∧ l.indexOf v = j := by
  induction l with
  | nil => simp [List.find?] at h
  | cons x t ih =>
    by_cases hx : p x = true
    · rw [List.find?_cons_of_pos t hx] at h
      have hxv : x = v := by injection h
      subst hxv
      exact ⟨0, by simp, by simp, hx, fun i hi => absurd hi (by omega),
        List.indexOf_cons_self x t⟩
    · rw [List.find?_cons_of_neg t hx] at h
      obtain ⟨j, hj, hval, hpv, hmin, hidx⟩ := ih h
      have hx' : p x = false := by simpa using hx
      have hne : x ≠ v := fun he => hx (he ▸ hpv)
      refine ⟨j + 1, by simpa using Nat.succ_lt_succ hj, by simpa using hval, hpv, ?_, ?_⟩
      · intro i hi
        match i with
        | 0 => simpa using hx'
        | i' + 1 =>
          have := hmin i' (by omega)
          simpa using this
      · rw [List.indexOf_cons_ne t hne, hidx]

/-! ### Facts about the planner's prefix sums and its crossing search -/

lemma totalSugars_length (ws : List WortData) :
    (totalSugars ws).length = ws.length + 1 := by
  simp [totalSugars, pyAccumulate_length]

lemma totalSugars_getD (ws : List WortData) (j : ℕ) (hj : j ≤ ws.length) :
    (totalSugars ws).getD j 0 = ((ws.map wortSugar).take j).sum :=
  cum_getD (ws.map wortSugar) j (by simpa using hj)

lemma totalSugars_getLastD (ws : List WortData) :
    (totalSugars ws).getLastD 0 = (ws.map wortSugar).sum :=
  cum_getLastD (ws.map wortSugar)

lemma totalVolumes_length (ws : List WortData) :
    (totalVolumes ws).length = ws.length + 1 := by
  simp [totalVolumes, pyAccumulate_length]

lemma totalVolumes_getD (ws : List WortData) (j : ℕ) (hj : j ≤ ws.length) :
    (totalVolumes ws).getD j 0 = ((ws.map WortData.volume).take j).sum :=
  cum_getD (ws.map WortData.volume) j (by simpa using hj)

lemma totalSugars_getD_succ (ws : List WortData) (j : ℕ) (hj : j < ws.length) :
    (totalSugars ws).getD (j + 1) 0 =
      (totalSugars ws).getD j 0 + wortSugar (ws.getD j default) := by
  rw [totalSugars_getD ws (j + 1) (by omega), totalSugars_getD ws j (by omega),
    List.sum_take_succ (ws.map wortSugar) j (by simpa using hj)]
  congr 1
  rw [List.getElem_map, List.getD_eq_getElem ws default hj]

lemma totalSugars_mono (ws : List WortData) (h0 : ∀ w ∈ ws, 0 ≤ wortSugar w)
    {i j : ℕ} (hij : i ≤ j) (hj : j ≤ ws.length) :
    (totalSugars ws).getD i 0 ≤ (totalSugars ws).getD j 0 := by
  rw [totalSugars_getD ws i (le_trans hij hj), totalSugars_getD ws j hj]
  refine sum_take_mono _ ?_ hij
  intro x hx
  obtain ⟨w, hw, rfl⟩ := List.mem_map.mp hx
  exact h0 w hw

lemma totalSugars_strict (ws : List WortData) (h0 : ∀ w ∈ ws, 0 < wortSugar w)
    {j : ℕ} (hj : j < ws.length) :
    (totalSugars ws).getD j 0 < (totalSugars ws).getD (j + 1) 0 := by
  rw [totalSugars_getD_succ ws j hj]
  have hmem : ws.getD j default ∈ ws := by
    rw [List.getD_eq_getElem ws default hj]
    exact List.getElem_mem hj
  have := h0 _ hmem
  linarith

lemma pyGet_natCast {α : Type} [Inhabited α] (l : List α) (j : ℕ) :
    pyGet l (j : ℤ) = l.getD j default := by
  simp only [pyGet]
  rw [if_neg (show ¬ ((j : ℤ) < 0) by omega), if_pos (show (0 : ℤ) ≤ (j : ℤ) by omega)]
  norm_num

lemma pySlice_natCast {α : Type} (l : List α) (j : ℕ) :
    pySlice l (j : ℤ) = l.take j := by
  simp only [pySlice]
  rw [if_neg (show ¬ ((j : ℤ) < 0) by omega)]
  norm_num

/-- Line 93 of `runnings.py`, forward direction: when `k` is the smallest
index whose prefix sugar sum reaches `needed_sugar`, the `index(next(filter`
combination computes `k - 1`. -/
lemma lastRunning_spec (a : PlanArgs) (k : ℕ) (hk : k ≤ a.runnings.length)
    (hcross : neededSugar a ≤ (totalSugars a.runnings).getD k 0)
    (hmin : ∀ j, j < k → (totalSugars a.runnings).getD j 0 < neededSugar a) :
    lastRunning a = some ((k : ℤ) - 1) := by
  unfold lastRunning
  have hk' : k < (totalSugars a.runnings).length := by
    rw [totalSugars_length]
    omega
  have hp : decide (neededSugar a ≤ (totalSugars a.runnings).getD k 0) = true := by
    simpa using hcross
  have hm : ∀ j, j < k →
      decide (neededSugar a ≤ (totalSugars a.runnings).getD j 0) = false := by
    intro j hj
    simp only [decide_eq_false_iff_not, not_le]
    exact hmin j hj
  obtain ⟨hf, hi⟩ :=
    find?_min_spec (fun t => decide (neededSugar a ≤ t)) (totalSugars a.runnings) k hk' hp hm
  rw [hf, Option.map_some', hi]

/-- Line 93 of `runnings.py`, inversion: a successful crossing search yields
`k - 1` for the smallest index `k` whose prefix sugar sum reaches
`needed_sugar`. -/
lemma lastRunning_inv (a : PlanArgs) (lr : ℤ) (h : lastRunning a = some lr) :
    ∃ k : ℕ, k < (totalSugars a.runnings).length ∧ lr = (k : ℤ) - 1 ∧
      neededSugar a ≤ (totalSugars a.runnings).getD k 0 ∧
      ∀ i, i < k → (totalSugars a.runnings).getD i 0 < neededSugar a := by
  unfold lastRunning at h
  obtain ⟨v, hv, hmap⟩ := Option.map_eq_some'.mp h
  obtain ⟨k, hk, hval, hpv, hmin, hidx⟩ := find?_inv _ _ v hv
  refine ⟨k, hk, ?_, ?_, ?_⟩
  · rw [← hmap, hidx]
  · rw [hval]
    exact of_decide_eq_true hpv
  · intro i hi
    have := hmin i hi
    simp only [decide_eq_false_iff_not, not_le] at this
    exact this

lemma rat_default : (default : ℚ) = 0 := rfl

lemma runningsMain_plan_eq (a : PlanArgs) (lr : ℤ)
    (hfeas : ¬ (totalSugars a.runnings).getLastD 0 < neededSugar a)
    (hlr : lastRunning a = some lr)
    (hcap : ¬ a.preboil_volume < runningVolume a lr) :
    runningsMain a =
      some (.plan (planVolumes a lr) (a.preboil_volume - (planVolumes a lr).sum)) := by
  simp only [runningsMain]
  rw [if_neg hfeas]
  simp only [hlr]
  rw [if_neg hcap]

lemma runningsMain_capacity_eq (a : PlanArgs) (lr : ℤ)
    (hfeas : ¬ (totalSugars a.runnings).getLastD 0 < neededSugar a)
    (hlr : lastRunning a = some lr)
    (hcap : a.preboil_volume < runningVolume a lr) :
    runningsMain a =
      some (.capacity ((runningVolume a lr - a.preboil_volume) / a.boiloff_rate * 60)
        (a.boil_duration + (runningVolume a lr - a.preboil_volume) / a.boiloff_rate * 60)) := by
  simp only [runningsMain]
  rw [if_neg hfeas]
  simp only [hlr]
  rw [if_pos hcap]

lemma runningsMain_plan_inv (a : PlanArgs) (V : List ℚ) (t : ℚ)
    (h : runningsMain a = some (.plan V t)) :
    ∃ lr, lastRunning a = some lr ∧ ¬ a.preboil_volume < runningVolume a lr ∧
      V = planVolumes a lr ∧ t = a.preboil_volume - (planVolumes a lr).sum ∧
      ¬ (totalSugars a.runnings).getLastD 0 < neededSugar a := by
  by_cases hfeas : (totalSugars a.runnings).getLastD 0 < neededSugar a
  · simp only [runningsMain] at h
    rw [if_pos hfeas] at h
    simp at h
  · simp only [runningsMain] at h
    rw [if_neg hfeas] at h
    cases hlr : lastRunning a with
    | none =>
      rw [hlr] at h
      simp at h
    | some lr =>
      simp only [hlr] at h
      by_cases hcap : a.preboil_volume < runningVolume a lr
      · rw [if_pos hcap] at h
        simp at h
      · rw [if_neg hcap] at h
        simp only [Option.some.injEq, PlanResult.plan.injEq] at h
        exact ⟨lr, rfl, hcap, h.1.symm, h.2.symm, hfeas⟩

/-- The plan's listed volumes sum exactly to the code's `running_volume`
whenever the crossing position is a genuine index `k - 1` with `1 ≤ k ≤ n`. -/
lemma planVolumes_sum (a : PlanArgs) (k : ℕ) (hk1 : 1 ≤ k) (hk : k ≤ a.runnings.length) :
    (planVolumes a ((k : ℤ) - 1)).sum = runningVolume a ((k : ℤ) - 1) := by
  have hcast : ((k : ℤ) - 1) = ((k - 1 : ℕ) : ℤ) := by omega
  rw [hcast, planVolumes, runningVolume, pySlice_natCast, pyGet_natCast, List.sum_append,
    List.sum_cons, List.sum_nil, rat_default,
    totalVolumes_getD a.runnings (k - 1) (by omega), List.map_take]
  ring

/-- Concrete planning input: sorted lots (3 gal at 20 points, 2 gal at 10
points), target 14 points, 5 gal final volume, 5.5 gal pre-boil capacity. -/
def exPlan : PlanArgs :=
  ⟨[⟨3, Gravity.ofPoints 20⟩, ⟨2, Gravity.ofPoints 10⟩], Gravity.ofPoints 14, 11/2, 5, 157/200, 60⟩

/-- Same lots but only 3 gal of pre-boil capacity: the 4 gal draw overflows. -/
def exCap : PlanArgs :=
  ⟨[⟨3, Gravity.ofPoints 20⟩, ⟨2, Gravity.ofPoints 10⟩], Gravity.ofPoints 14, 3, 5, 157/200, 60⟩

/-- One 3 gal lot at 20 points against a 20-point, 5 gal target: 100 points
needed, 60 available. -/
def exShort : PlanArgs :=
  ⟨[⟨3, Gravity.ofPoints 20⟩], Gravity.ofPoints 20, 6, 5, 157/200, 60⟩

/-- C2: for every planning input whose total sugar over all lots is strictly
less than `needed_sugar`, the planner produces no plan and instead reports
infeasibility together with the maximum achievable final volume
`total_sugars[n] / target_concentration.gravity_points`
(`runnings.py` lines 87-91). -/
theorem C2_infeasibility_reports_max_volume (a : PlanArgs)
    (htarget : 0 < a.target_OG.gravity_pts)
    (hshort : (totalSugars a.runnings).getLastD 0 < neededSugar a) :
    runningsMain a =
      some (.infeasible ((totalSugars a.runnings).getLastD 0 / a.target_OG.gravity_pts)) := by
  simp only [runningsMain]
  rw [if_pos hshort]

/-- Witness for C2 at the concrete short-sugar input. -/
theorem C2_witness :
    runningsMain exShort =
      some (.infeasible ((totalSugars exShort.runnings).getLastD 0 /
        exShort.target_OG.gravity_pts)) :=
  C2_infeasibility_reports_max_volume exShort
    (by norm_num [exShort, Gravity.gravity_pts, Gravity.ofPoints])
    (by norm_num [exShort, totalSugars, pyAccumulate, wortSugar, Gravity.gravity_pts,
      Gravity.ofPoints, neededSugar, List.getLastD])

/-- C6: whenever the planner's `drawn_volume` (`running_volume`) exceeds
`process_start_volume` (`preboil_volume`) and planning was feasible, the
adjuster reports `extra_duration = (drawn_volume - process_start_volume) /
loss_rate * 60`, with `extra_duration > 0`, and the new total duration
`original_duration + extra_duration` (`runnings.py` lines 99-103). -/
theorem C6_capacity_extra_duration (a : PlanArgs) (lr : ℤ)
    (hrate : 0 < a.boiloff_rate)
    (hfeas : ¬ (totalSugars a.runnings).getLastD 0 < neededSugar a)
    (hlr : lastRunning a = some lr)
    (hcap : a.preboil_volume < runningVolume a lr) :
    runningsMain a =
      some (.capacity ((runningVolume a lr - a.preboil_volume) / a.boiloff_rate * 60)
        (a.boil_duration + (runningVolume a lr - a.preboil_volume) / a.boiloff_rate * 60)) ∧
    0 < (runningVolume a lr - a.preboil_volume) / a.boiloff_rate * 60 := by
  refine ⟨runningsMain_capacity_eq a lr hfeas hlr hcap, ?_⟩
  have h1 : 0 < runningVolume a lr - a.preboil_volume := by linarith
  have h2 : (0 : ℚ) < 60 := by norm_num
  exact mul_pos (div_pos h1 hrate) h2

/-- Witness for C6 at the concrete over-capacity input. -/
theorem C6_witness :
    (runningsMain exCap =
      some (.capacity ((runningVolume exCap 1 - exCap.preboil_volume) / exCap.boiloff_rate * 60)
        (exCap.boil_duration +
          (runningVolume exCap 1 - exCap.preboil_volume) / exCap.boiloff_rate * 60)) ∧
    0 < (runningVolume exCap 1 - exCap.preboil_volume) / exCap.boiloff_rate * 60) :=
  C6_capacity_extra_duration exCap 1
    (by norm_num [exCap])
    (by norm_num [exCap, totalSugars, pyAccumulate, wortSugar, Gravity.gravity_pts,
      Gravity.ofPoints, neededSugar, List.getLastD])
    (by norm_num [exCap, lastRunning, totalSugars, pyAccumulate, wortSugar,
      Gravity.gravity_pts, Gravity.ofPoints, neededSugar, List.find?, List.indexOf,
      List.findIdx, List.findIdx.go, cond_eq_if, beq_iff_eq])
    (by norm_num [exCap, runningVolume, lastRunningVolume, lastRunningFraction, pyGet,
      totalSugars, totalVolumes, pyAccumulate, wortSugar, Gravity.gravity_pts,
      Gravity.ofPoints, neededSugar, List.getD]
        <;> simp <;> norm_num)

/-- C9, counterexample: for `sg = 2`, which lies outside the open interval
`(1, 1.2)`, the claimed round-trip `from_sg(sg).specific_gravity == sg`
fails: `from_sg` treats such a number as gravity points, giving `1.002`. -/
theorem C9_counterexample :
    (Gravity.from_sg 2).specific_gravity ≠ 2 ∧ ¬ (1 < (2 : ℚ) ∧ (2 : ℚ) < 1.2) := by
  norm_num [Gravity.from_sg, Gravity.ofPoints]

/-- C9, amended: `from_brix(b).brix == b` for every `b`; and
`from_sg(sg).specific_gravity == sg` holds for `sg` strictly INSIDE the open
interval `(1, 1.2)` (where `from_sg` treats its argument as a specific
gravity), not outside it. -/
theorem C9_roundtrips (b sg : ℚ) (h1 : 1 < sg) (h2 : sg < 1.2) :
    (Gravity.from_brix b).brix = b ∧ (Gravity.from_sg sg).specific_gravity = sg := by
  constructor
  · simp only [Gravity.from_brix, Gravity.ofPoints, Gravity.brix, Gravity.gravity_pts]
    ring
  · simp only [Gravity.from_sg, Gravity.ofPoints, if_pos (And.intro h1 h2)]
    ring

/-- Witness for C9 at `b = 5`, `sg = 1.05`. -/
theorem C9_witness :
    (Gravity.from_brix 5).brix = 5 ∧ (Gravity.from_sg 1.05).specific_gravity = 1.05 :=
  C9_roundtrips 5 1.05 (by norm_num) (by norm_num)

/-- C10: the pre-planning volume validation treats a supplied volume equal to
0 as absent (Python truthiness): a lone zero volume raises the
missing-parameter error; a zero volume next to a nonzero one is silently
overwritten by the derived value, skipping the mutual-consistency check
(`runnings.py` lines 33-44, `gravity.py` lines 80-90). -/
theorem C10_zero_volume_is_absent (r d p v : ℚ) (hv : v ≠ 0) :
    validateRunnings (some 0) none r d p = .missing ∧
    validateRunnings none (some 0) r d p = .missing ∧
    validateRunnings (some 0) (some 0) r d p = .missing ∧
    validateRunnings (some 0) (some v) r d p =
      .ok (v / (1 - p / 100) + r * d / 60) v ∧
    validateRunnings (some v) (some 0) r d p =
      .ok v ((v - r * d / 60) * (1 - p / 100)) ∧
    validateGravity (some 0) none r d = .missing ∧
    validateGravity none (some 0) r d = .missing ∧
    validateGravity (some 0) (some 0) r d = .missing ∧
    validateGravity (some 0) (some v) r d = .ok (v + r * d / 60) v ∧
    validateGravity (some v) (some 0) r d = .ok v (v - r * d / 60) := by
  simp [validateRunnings, validateGravity, truthy, hv]

/-- Witness for C10 at `r = 1`, `d = 60`, `p = 4`, `v = 5`. -/
theorem C10_witness :
    validateRunnings (some 0) none 1 60 4 = .missing ∧
    validateRunnings none (some 0) 1 60 4 = .missing ∧
    validateRunnings (some 0) (some 0) 1 60 4 = .missing ∧
    validateRunnings (some 0) (some 5) 1 60 4 =
      .ok ((5 : ℚ) / (1 - 4 / 100) + 1 * 60 / 60) 5 ∧
    validateRunnings (some 5) (some 0) 1 60 4 =
      .ok 5 (((5 : ℚ) - 1 * 60 / 60) * (1 - 4 / 100)) ∧
    validateGravity (some 0) none 1 60 = .missing ∧
    validateGravity none (some 0) 1 60 = .missing ∧
    validateGravity (some 0) (some 0) 1 60 = .missing ∧
    validateGravity (some 0) (some 5) 1 60 = .ok ((5 : ℚ) + 1 * 60 / 60) 5 ∧
    validateGravity (some 5) (some 0) 1 60 = .ok 5 ((5 : ℚ) - 1 * 60 / 60) :=
  C10_zero_volume_is_absent 1 60 4 5 (by norm_num)

/-- C7: the program's own help text promises that readings such as `18` and
`12.5` parse (`-w 3/18 2/12.5`), and the claim states that every decimal
number optionally followed by `c`/`u` parses; but the regex
`\d(\.\d+)?[c|u]?$` only admits a SINGLE integer digit, so `from_text`
raises `ValueError` on `18` and `12.5` while accepting `1.05c`. -/
theorem C7_single_digit_quantity :
    Gravity.from_text "18" 'u' = none ∧
    Gravity.from_text "12.5" 'u' = none ∧
    Gravity.from_text "18" 'c' = none ∧
    Gravity.from_text "1.05c" 'u' = some ⟨1.05⟩ := by
  refine ⟨rfl, rfl, rfl, ?_⟩
  have hm : matchGravity ("1.05c".data.map Char.toLower) =
      some (decimalValue '1' ['0', '5'], some 'c') := rfl
  have hq : decimalValue '1' ['0', '5'] = 21 / 20 := by
    have e1 : digitVal '1' = 1 := rfl
    have e0 : digitVal '0' = 0 := rfl
    have e5 : digitVal '5' = 5 := rfl
    norm_num [decimalValue, e1, e0, e5, List.foldl]
  have hraw : rawGravity (21 / 20) = ⟨21 / 20⟩ := by
    norm_num [rawGravity, Gravity.from_sg, Gravity.ofPoints]
  simp only [Gravity.from_text, hm, hq, hraw]
  norm_num
  intro h
  exact absurd h (by decide)

lemma totalSugars_getLastD_eq_getD (ws : List WortData) :
    (totalSugars ws).getLastD 0 = (totalSugars ws).getD ws.length 0 := by
  rw [totalSugars_getLastD, totalSugars_getD ws ws.length le_rfl,
    show (ws.map wortSugar).take ws.length = ws.map wortSugar from by simp]

/-- With every lot contributing positive sugar, the prefix-sum list reaches
its final value only at the end: every proper prefix is strictly below. -/
lemma totalSugars_lt_of_lt (ws : List WortData)
    (h0 : ∀ w ∈ ws, 0 < wortSugar w) {j : ℕ} (hj : j < ws.length) :
    (totalSugars ws).getD j 0 < (totalSugars ws).getD ws.length 0 := by
  have h1 := totalSugars_strict ws h0 hj
  have h2 := totalSugars_mono ws (fun w hw => le_of_lt (h0 w hw))
    (show j + 1 ≤ ws.length by omega) le_rfl
  linarith

lemma wortSugar_pos (ws : List WortData)
    (hlots : ∀ w ∈ ws, 0 < w.gravity.gravity_pts ∧ 0 < w.volume) :
    ∀ w ∈ ws, 0 < wortSugar w :=
  fun w hw => mul_pos (hlots w hw).1 (hlots w hw).2

lemma take_map_concat (ws : List WortData) (hne : ws ≠ []) :
    (ws.take (ws.length - 1)).map WortData.volume ++
      [(ws.getD (ws.length - 1) default).volume] = ws.map WortData.volume := by
  have hl : ws.map WortData.volume ≠ [] := by simpa using hne
  have hlen : ws.length - 1 < ws.length := by
    have : ws.length ≠ 0 := by simpa using hne
    omega
  have h1 : (ws.take (ws.length - 1)).map WortData.volume =
      (ws.map WortData.volume).dropLast := by
    rw [List.map_take, List.dropLast_eq_take, List.length_map]
  have h2 : (ws.getD (ws.length - 1) default).volume = (ws.map WortData.volume).getLast hl := by
    rw [List.getLast_eq_get, List.getD_eq_getElem ws default hlen]
    simp
  rw [h1, h2, List.dropLast_append_getLast]

/-- C1: for every feasible planning input (positive target gravity points,
positive final volume, lots with positive gravity points and positive
volumes, enough total sugar), the planner takes whole the sorted lots
`0..k-2` and of lot `k-1` uses exactly `fraction * lot[k-1].volume`, where
`k` is the smallest prefix index with `total_sugars[k] >= needed_sugar` and
`fraction = (needed_sugar - total_sugars[k-1]) /
(total_sugars[k] - total_sugars[k-1])` (`runnings.py` lines 93-96, 105). -/
theorem C1_prefix_interpolation (a : PlanArgs) (k : ℕ)
    (htarget : 0 < a.target_OG.gravity_pts)
    (hfinal : 0 < a.final_volume)
    (hlots : ∀ w ∈ a.runnings, 0 < w.gravity.gravity_pts ∧ 0 < w.volume)
    (hk : k ≤ a.runnings.length)
    (hcross : neededSugar a ≤ (totalSugars a.runnings).getD k 0)
    (hmin : ∀ j, j < k → (totalSugars a.runnings).getD j 0 < neededSugar a) :
    lastRunning a = some ((k : ℤ) - 1) ∧
    lastRunningVolume a ((k : ℤ) - 1) =
      ((neededSugar a - (totalSugars a.runnings).getD (k - 1) 0) /
        ((totalSugars a.runnings).getD k 0 - (totalSugars a.runnings).getD (k - 1) 0)) *
        (a.runnings.getD (k - 1) default).volume ∧
    planVolumes a ((k : ℤ) - 1) =
      (a.runnings.take (k - 1)).map WortData.volume ++ [lastRunningVolume a ((k : ℤ) - 1)] ∧
    (¬ a.preboil_volume < runningVolume a ((k : ℤ) - 1) →
      runningsMain a = some (.plan (planVolumes a ((k : ℤ) - 1))
        (a.preboil_volume - (planVolumes a ((k : ℤ) - 1)).sum))) := by
  have hneed : 0 < neededSugar a := mul_pos htarget hfinal
  have hk1 : 1 ≤ k := by
    rcases Nat.eq_zero_or_pos k with h0 | h
    · subst h0
      rw [show (totalSugars a.runnings).getD 0 0 = 0 from List.getD_cons_zero] at hcross
      linarith
    · exact h
  have hcast : ((k : ℤ) - 1) = ((k - 1 : ℕ) : ℤ) := by omega
  have hcast2 : ((k - 1 : ℕ) : ℤ) + 1 = ((k : ℕ) : ℤ) := by omega
  have hlr : lastRunning a = some ((k : ℤ) - 1) := lastRunning_spec a k hk hcross hmin
  have hvol : lastRunningVolume a ((k : ℤ) - 1) =
      ((neededSugar a - (totalSugars a.runnings).getD (k - 1) 0) /
        ((totalSugars a.runnings).getD k 0 - (totalSugars a.runnings).getD (k - 1) 0)) *
        (a.runnings.getD (k - 1) default).volume := by
    rw [lastRunningVolume, lastRunningFraction, hcast, hcast2, pyGet_natCast, pyGet_natCast,
      pyGet_natCast, rat_default]
  have hplan : planVolumes a ((k : ℤ) - 1) =
      (a.runnings.take (k - 1)).map WortData.volume ++ [lastRunningVolume a ((k : ℤ) - 1)] := by
    rw [planVolumes, hcast, pySlice_natCast]
  refine ⟨hlr, hvol, hplan, ?_⟩
  intro hcap
  have hws := wortSugar_pos a.runnings hlots
  have hfeas : ¬ (totalSugars a.runnings).getLastD 0 < neededSugar a := by
    rw [totalSugars_getLastD_eq_getD]
    have hmono := totalSugars_mono a.runnings (fun w hw => le_of_lt (hws w hw)) hk le_rfl
    exact not_lt.mpr (le_trans hcross hmono)
  exact runningsMain_plan_eq a ((k : ℤ) - 1) hfeas hlr hcap

/-- Witness for C1 at the concrete two-lot input (`k = 2`). -/
theorem C1_witness :
    lastRunning exPlan = some (((2 : ℕ) : ℤ) - 1) ∧
    lastRunningVolume exPlan (((2 : ℕ) : ℤ) - 1) =
      ((neededSugar exPlan - (totalSugars exPlan.runnings).getD (2 - 1) 0) /
        ((totalSugars exPlan.runnings).getD 2 0 - (totalSugars exPlan.runnings).getD (2 - 1) 0)) *
        (exPlan.runnings.getD (2 - 1) default).volume ∧
    planVolumes exPlan (((2 : ℕ) : ℤ) - 1) =
      (exPlan.runnings.take (2 - 1)).map WortData.volume ++
        [lastRunningVolume exPlan (((2 : ℕ) : ℤ) - 1)] ∧
    (¬ exPlan.preboil_volume < runningVolume exPlan (((2 : ℕ) : ℤ) - 1) →
      runningsMain exPlan = some (.plan (planVolumes exPlan (((2 : ℕ) : ℤ) - 1))
        (exPlan.preboil_volume - (planVolumes exPlan (((2 : ℕ) : ℤ) - 1)).sum))) :=
  C1_prefix_interpolation exPlan 2
    (by norm_num [exPlan, Gravity.gravity_pts, Gravity.ofPoints])
    (by norm_num [exPlan])
    (by
      intro w hw
      simp only [exPlan, List.mem_cons, List.mem_singleton] at hw
      rcases hw with rfl | rfl | h
      · norm_num [Gravity.gravity_pts, Gravity.ofPoints]
      · norm_num [Gravity.gravity_pts, Gravity.ofPoints]
      · simp at h)
    (by norm_num [exPlan])
    (by norm_num [exPlan, totalSugars, pyAccumulate, wortSugar, Gravity.gravity_pts,
      Gravity.ofPoints, neededSugar, List.getD])
    (by
      intro j hj
      interval_cases j <;>
        norm_num [exPlan, totalSugars, pyAccumulate, wortSugar, Gravity.gravity_pts,
          Gravity.ofPoints, neededSugar, List.getD])

/-- C3: when `total_sugars[n]` equals `needed_sugar` exactly, the feasibility
check passes, the crossing index is `n`, the fractional share of the last lot
is 1, and the plan uses 100% of every sorted lot (`runnings.py` lines 93-96;
the `>=` comparison takes the tie). -/
theorem C3_exact_feasibility_boundary (a : PlanArgs)
    (hlots : ∀ w ∈ a.runnings, 0 < w.gravity.gravity_pts ∧ 0 < w.volume)
    (hne : a.runnings ≠ [])
    (heq : (totalSugars a.runnings).getLastD 0 = neededSugar a) :
    lastRunning a = some ((a.runnings.length : ℤ) - 1) ∧
    lastRunningFraction a ((a.runnings.length : ℤ) - 1) = 1 ∧
    planVolumes a ((a.runnings.length : ℤ) - 1) = a.runnings.map WortData.volume ∧
    (¬ a.preboil_volume < runningVolume a ((a.runnings.length : ℤ) - 1) →
      runningsMain a = some (.plan (a.runnings.map WortData.volume)
        (a.preboil_volume - (a.runnings.map WortData.volume).sum))) := by
  have hws := wortSugar_pos a.runnings hlots
  have hn1 : 1 ≤ a.runnings.length := by
    have : a.runnings.length ≠ 0 := by simpa using hne
    omega
  have hgl := totalSugars_getLastD_eq_getD a.runnings
  have hcross : neededSugar a ≤ (totalSugars a.runnings).getD a.runnings.length 0 := by
    rw [← hgl, heq]
  have hmin : ∀ j, j < a.runnings.length →
      (totalSugars a.runnings).getD j 0 < neededSugar a := by
    intro j hj
    have := totalSugars_lt_of_lt a.runnings hws hj
    rw [← hgl, heq] at this
    exact this
  have hlr : lastRunning a = some ((a.runnings.length : ℤ) - 1) :=
    lastRunning_spec a a.runnings.length le_rfl hcross hmin
  have hcast : ((a.runnings.length : ℤ) - 1) = ((a.runnings.length - 1 : ℕ) : ℤ) := by omega
  have hcast2 : ((a.runnings.length - 1 : ℕ) : ℤ) + 1 = ((a.runnings.length : ℕ) : ℤ) := by
    omega
  have hlt : (totalSugars a.runnings).getD (a.runnings.length - 1) 0 <
      (totalSugars a.runnings).getD a.runnings.length 0 := by
    have := totalSugars_lt_of_lt a.runnings hws (show a.runnings.length - 1 < a.runnings.length by omega)
    exact this
  have hfrac : lastRunningFraction a ((a.runnings.length : ℤ) - 1) = 1 := by
    rw [lastRunningFraction, hcast, hcast2, pyGet_natCast, pyGet_natCast, rat_default]
    rw [show neededSugar a = (totalSugars a.runnings).getD a.runnings.length 0 from by
      rw [← hgl, heq]]
    exact div_self (by linarith)
  have hlrv : lastRunningVolume a ((a.runnings.length : ℤ) - 1) =
      (a.runnings.getD (a.runnings.length - 1) default).volume := by
    rw [lastRunningVolume, hfrac, one_mul, hcast, pyGet_natCast]
  have hplan : planVolumes a ((a.runnings.length : ℤ) - 1) = a.runnings.map WortData.volume := by
    rw [hcast] at hlrv
    rw [planVolumes, hcast, pySlice_natCast, hlrv]
    exact take_map_concat a.runnings hne
  refine ⟨hlr, hfrac, hplan, ?_⟩
  intro hcap
  have hfeas : ¬ (totalSugars a.runnings).getLastD 0 < neededSugar a := by
    rw [heq]
    exact lt_irrefl _
  have := runningsMain_plan_eq a ((a.runnings.length : ℤ) - 1) hfeas hlr hcap
  rw [hplan] at this
  exact this

/-- Same two lots with target 16 points at 5 gal: needs exactly the 80
available sugar points. -/
def exExact : PlanArgs :=
  ⟨[⟨3, Gravity.ofPoints 20⟩, ⟨2, Gravity.ofPoints 10⟩], Gravity.ofPoints 16, 11/2, 5, 157/200, 60⟩

/-- Witness for C3 at the exact-boundary input. -/
theorem C3_witness :
    lastRunning exExact = some ((exExact.runnings.length : ℤ) - 1) ∧
    lastRunningFraction exExact ((exExact.runnings.length : ℤ) - 1) = 1 ∧
    planVolumes exExact ((exExact.runnings.length : ℤ) - 1) =
      exExact.runnings.map WortData.volume ∧
    (¬ exExact.preboil_volume < runningVolume exExact ((exExact.runnings.length : ℤ) - 1) →
      runningsMain exExact = some (.plan (exExact.runnings.map WortData.volume)
        (exExact.preboil_volume - (exExact.runnings.map WortData.volume).sum))) :=
  C3_exact_feasibility_boundary exExact
    (by
      intro w hw
      simp only [exExact, List.mem_cons, List.mem_singleton] at hw
      rcases hw with rfl | rfl | h
      · norm_num [Gravity.gravity_pts, Gravity.ofPoints]
      · norm_num [Gravity.gravity_pts, Gravity.ofPoints]
      · simp at h)
    (by simp [exExact])
    (by norm_num [exExact, totalSugars, pyAccumulate, wortSugar, Gravity.gravity_pts,
      Gravity.ofPoints, neededSugar, List.getLastD])

/-- A degenerate but accepted planning input: target gravity `0` (so
`needed_sugar = 0`) and a negative-volume second lot.  The crossing search
finds `total_sugars[0] = 0 >= 0`, so `last_running = -1`, and Python's
negative indexing makes the interpolation read the LAST lot while the plan
keeps the whole first lot. -/
def cexC5 : PlanArgs :=
  ⟨[⟨8, Gravity.ofPoints 2⟩, ⟨-3, Gravity.ofPoints 1⟩], Gravity.ofPoints 0, 3, 1, 157/200, 60⟩

/-- C5, counterexample: the planner produces a plan (neither abort taken)
whose reported top-off water is `-2`, a negative figure — so the reported
top-off is not `process_start_volume - drawn_volume` clamped at zero. -/
theorem C5_counterexample :
    runningsMain cexC5 = some (.plan [8, -3] (-2)) ∧ ((-2 : ℚ) < 0) := by
  constructor
  · norm_num [cexC5, runningsMain, totalSugars, totalVolumes, pyAccumulate, wortSugar,
      Gravity.gravity_pts, Gravity.ofPoints, neededSugar, lastRunning, lastRunningFraction,
      lastRunningVolume, runningVolume, planVolumes, pyGet, pySlice, List.find?,
      List.indexOf, List.findIdx, List.findIdx.go, cond_eq_if, beq_iff_eq, List.getLastD,
      List.getD]
    simp
    norm_num
  · norm_num

/-- C5, amended: whenever the planner produces a plan and `needed_sugar` is
positive (in particular for positive target gravity points and positive
final volume), the reported top-off water equals
`process_start_volume - drawn_volume`, it is never negative (the capacity
abort was not taken), and so it equals the floor-clamped
`max 0 (process_start_volume - drawn_volume)` (`runnings.py` lines 99-112).
For `needed_sugar <= 0` the planner can report a negative top-off. -/
theorem C5_topoff_nonneg (a : PlanArgs) (V : List ℚ) (t : ℚ)
    (hneed : 0 < neededSugar a)
    (h : runningsMain a = some (.plan V t)) :
    0 ≤ t ∧ ∃ lr, lastRunning a = some lr ∧
      t = a.preboil_volume - runningVolume a lr ∧
      t = max 0 (a.preboil_volume - runningVolume a lr) := by
  obtain ⟨lr, hlr, hcap, hV, ht, hfeas⟩ := runningsMain_plan_inv a V t h
  obtain ⟨k, hk, hlrk, hcross, hmin⟩ := lastRunning_inv a lr hlr
  have hk1 : 1 ≤ k := by
    rcases Nat.eq_zero_or_pos k with h0 | hpos
    · subst h0
      rw [show (totalSugars a.runnings).getD 0 0 = 0 from List.getD_cons_zero] at hcross
      linarith
    · exact hpos
  have hklen : k ≤ a.runnings.length := by
    rw [totalSugars_length] at hk
    omega
  have hsum : (planVolumes a lr).sum = runningVolume a lr := by
    rw [hlrk]
    exact planVolumes_sum a k hk1 hklen
  have ht' : t = a.preboil_volume - runningVolume a lr := by
    rw [ht, hsum]
  have h0t : 0 ≤ t := by
    rw [ht']
    linarith [not_lt.mp hcap]
  refine ⟨h0t, lr, hlr, ht', ?_⟩
  rw [← ht']
  exact (max_eq_right h0t).symm

/-- Witness for C5 at the concrete two-lot input, whose plan is `[3, 1]` with
top-off `3/2`. -/
theorem C5_witness :
    (0 : ℚ) ≤ 3/2 ∧ ∃ lr, lastRunning exPlan = some lr ∧
      (3/2 : ℚ) = exPlan.preboil_volume - runningVolume exPlan lr ∧
      (3/2 : ℚ) = max 0 (exPlan.preboil_volume - runningVolume exPlan lr) :=
  C5_topoff_nonneg exPlan [3, 1] (3/2)
    (by norm_num [exPlan, neededSugar, Gravity.gravity_pts, Gravity.ofPoints])
    (by
      norm_num [exPlan, runningsMain, totalSugars, totalVolumes, pyAccumulate, wortSugar,
        Gravity.gravity_pts, Gravity.ofPoints, neededSugar, lastRunning, lastRunningFraction,
        lastRunningVolume, runningVolume, planVolumes, pyGet, pySlice, List.find?,
        List.indexOf, List.findIdx, List.findIdx.go, cond_eq_if, beq_iff_eq, List.getLastD,
        List.getD]
      simp
      norm_num)

lemma gravity_pts_ofPoints (g : ℚ) : (Gravity.ofPoints g).gravity_pts = g := by
  simp only [Gravity.ofPoints, Gravity.gravity_pts]
  ring

lemma from_sg_eq_ofPoints (x : ℚ) (h : ¬ (1 < x ∧ x < 1.2)) :
    Gravity.from_sg x = Gravity.ofPoints x := by
  rw [Gravity.from_sg, if_neg h]

/-- C8, counterexample: the uncorrected reading `1.2` classifies as a
specific-gravity number with `raw_points = 1.2`; the claim predicts final
gravity points `1.2 / 1.04 = 15/13`, but `from_sg` re-interprets that value
(strictly between 1 and 1.2) as a specific gravity, producing `2000/13`
points instead. -/
theorem C8_counterexample :
    (Gravity.from_text "1.2" 'u').map Gravity.gravity_pts = some (2000 / 13) ∧
    (rawGravity (decimalValue '1' ['2'])).gravity_pts / 1.04 = 15 / 13 ∧
    (2000 / 13 : ℚ) ≠ 15 / 13 := by
  have e1 : digitVal '1' = 1 := rfl
  have e2 : digitVal '2' = 2 := rfl
  have hq : decimalValue '1' ['2'] = 6 / 5 := by
    norm_num [decimalValue, e1, e2, List.foldl]
  have hraw : rawGravity (6 / 5) = Gravity.ofPoints (6 / 5) := by
    norm_num [rawGravity, Gravity.from_sg, Gravity.ofPoints]
  refine ⟨?_, ?_, by norm_num⟩
  · have hm : matchGravity ("1.2".data.map Char.toLower) =
        some (decimalValue '1' ['2'], none) := rfl
    simp only [Gravity.from_text, hm, hq, hraw]
    norm_num [corrected, gravity_pts_ofPoints, Gravity.from_sg, Gravity.ofPoints,
      Gravity.gravity_pts]
  · rw [hq, hraw, gravity_pts_ofPoints]
    norm_num

/-- C8, amended: for every reading parsed as uncorrected, the gravity points
of the returned value are `from_sg(raw_points / 1.04).gravity_pts`; whenever
`raw_points / 1.04` does not fall strictly between 1 and 1.2 this equals
`raw_points / 1.04` exactly as the claim states (`units.py` lines 43-49,
28-30). -/
theorem C8_uncorrected_scaling (text : String) (correction : Char) (q : ℚ) (copt : Option Char)
    (hmatch : matchGravity (text.data.map Char.toLower) = some (q, copt))
    (hu : copt.getD correction = 'u')
    (hnm : ¬ (1 < corrected (rawGravity q).gravity_pts ∧
      corrected (rawGravity q).gravity_pts < 1.2)) :
    (Gravity.from_text text correction).map Gravity.gravity_pts =
      some ((rawGravity q).gravity_pts / 1.04) := by
  simp only [Gravity.from_text, hmatch, hu, if_pos, Option.map_some']
  rw [from_sg_eq_ofPoints _ hnm, gravity_pts_ofPoints, corrected]

/-- Witness for C8 at the reading `1.1` (raw points 100, corrected 1250/13). -/
theorem C8_witness :
    (Gravity.from_text "1.1" 'u').map Gravity.gravity_pts =
      some ((rawGravity (decimalValue '1' ['1'])).gravity_pts / 1.04) :=
  C8_uncorrected_scaling "1.1" 'u' (decimalValue '1' ['1']) none rfl rfl
    (by
      have e1 : digitVal '1' = 1 := rfl
      have hq : decimalValue '1' ['1'] = 11 / 10 := by
        norm_num [decimalValue, e1, List.foldl]
      rw [hq]
      norm_num [rawGravity, Gravity.from_sg, Gravity.ofPoints, Gravity.gravity_pts, corrected])

/-! ### Variant equivalence machinery (C4) -/

lemma Gravity.lt_def (a b : Gravity) : a < b ↔ a.specific_gravity < b.specific_gravity :=
  Iff.rfl

lemma ofPoints_lt_ofPoints (x y : ℚ) : Gravity.ofPoints x < Gravity.ofPoints y ↔ x < y := by
  rw [Gravity.lt_def]
  simp only [Gravity.ofPoints]
  constructor <;> intro h <;> linarith

lemma getD_mem_of_lt {l : List ℚ} {j : ℕ} (hj : j < l.length) : l.getD j 0 ∈ l := by
  rw [List.getD_eq_getElem l 0 hj]
  exact List.getElem_mem hj

lemma getD_mem_of_lt_wort {l : List WortData} {j : ℕ} (hj : j < l.length) :
    l.getD j default ∈ l := by
  rw [List.getD_eq_getElem l default hj]
  exact List.getElem_mem hj

/-- The `runnings.py` planner input corresponding to a `gravity.py` input:
same lots, target and volumes (the post-boil volume plays the final-volume
role), same boil parameters. -/
def toPlanArgs (a : GravArgs) : PlanArgs :=
  ⟨a.runnings, a.target_OG, a.preboil_volume, a.postboil_volume, a.boiloff_rate,
    a.boil_duration⟩

lemma totalGravities_eq (a : GravArgs) : totalGravities a = totalSugars a.runnings :=
  rfl

/-- C4: on the same sorted lots, with the same crossing index `k`, with a
positive pre-boil volume, and as long as no scaled intermediate value fed to
`Gravity.from_sg` falls strictly between 1 and 1.2, the `gravity.py` variant's
fractional last-lot volume `u = (needed_sugar - total_sugars[k-1]) /
lot[k-1].gravity_points` equals the `runnings.py` variant's
`fraction * lot[k-1].volume`; after dropping the zero entries the two
variants display the same sequence of plan volumes and compute the same drawn
volume, hence the same top-off water. -/
theorem C4_variant_equivalence (a : GravArgs) (k : ℕ)
    (hpre : 0 < a.preboil_volume)
    (hlots : ∀ w ∈ a.runnings, 0 < w.gravity.gravity_pts ∧ 0 < w.volume)
    (hk1 : 1 ≤ k) (hkn : k ≤ a.runnings.length)
    (hminR : ∀ j, j < k → (totalSugars a.runnings).getD j 0 <
      a.target_OG.gravity_pts * a.postboil_volume)
    (hcrossG : a.target_OG.gravity_pts * a.postboil_volume <
      (totalSugars a.runnings).getD k 0)
    (hnm1 : ¬ (1 < a.target_OG.gravity_pts * a.postboil_volume / a.preboil_volume ∧
      a.target_OG.gravity_pts * a.postboil_volume / a.preboil_volume < 1.2))
    (hnm2 : ∀ t ∈ totalSugars a.runnings,
      ¬ (1 < t / a.preboil_volume ∧ t / a.preboil_volume < 1.2)) :
    gravityU a (k : ℤ) = lastRunningVolume (toPlanArgs a) ((k : ℤ) - 1) ∧
    gravityMain a = some (.plan (planVolumes (toPlanArgs a) ((k : ℤ) - 1))
      (a.preboil_volume - runningVolume (toPlanArgs a) ((k : ℤ) - 1))) ∧
    (¬ a.preboil_volume < runningVolume (toPlanArgs a) ((k : ℤ) - 1) →
      runningsMain (toPlanArgs a) = some (.plan (planVolumes (toPlanArgs a) ((k : ℤ) - 1))
        (a.preboil_volume - runningVolume (toPlanArgs a) ((k : ℤ) - 1)))) := by
  have hws := wortSugar_pos a.runnings hlots
  have hcast : ((k : ℤ) - 1) = ((k - 1 : ℕ) : ℤ) := by omega
  have hcast2 : ((k - 1 : ℕ) : ℤ) + 1 = ((k : ℕ) : ℤ) := by omega
  have hkm1 : k - 1 < a.runnings.length := by omega
  have hklt : k < (totalSugars a.runnings).length := by
    rw [totalSugars_length]
    omega
  have hwk := hlots _ (getD_mem_of_lt_wort hkm1)
  have hp0 : (a.runnings.getD (k - 1) default).gravity.gravity_pts ≠ 0 := ne_of_gt hwk.1
  have hv0 : (a.runnings.getD (k - 1) default).volume ≠ 0 := ne_of_gt hwk.2
  have hsucc : (totalSugars a.runnings).getD k 0 =
      (totalSugars a.runnings).getD (k - 1) 0 +
        wortSugar (a.runnings.getD (k - 1) default) := by
    have h := totalSugars_getD_succ a.runnings (k - 1) hkm1
    rwa [show k - 1 + 1 = k by omega] at h
  have hpg : preboilGravity a =
      Gravity.ofPoints (a.target_OG.gravity_pts * a.postboil_volume / a.preboil_volume) := by
    rw [preboilGravity, from_sg_eq_ofPoints _ hnm1]
  -- the fractional last-lot volumes agree
  have hu_form : gravityU a (k : ℤ) =
      (a.target_OG.gravity_pts * a.postboil_volume -
        (totalSugars a.runnings).getD (k - 1) 0) /
        (a.runnings.getD (k - 1) default).gravity.gravity_pts := by
    rw [gravityU, hpg, gravity_pts_ofPoints, div_mul_cancel₀ _ (ne_of_gt hpre),
      totalGravities_eq, show (k : ℤ) - 1 = ((k - 1 : ℕ) : ℤ) from hcast, pyGet_natCast,
      pyGet_natCast, rat_default]
  have hlrv : lastRunningVolume (toPlanArgs a) ((k : ℤ) - 1) =
      (a.target_OG.gravity_pts * a.postboil_volume -
        (totalSugars a.runnings).getD (k - 1) 0) /
        (a.runnings.getD (k - 1) default).gravity.gravity_pts := by
    rw [lastRunningVolume, lastRunningFraction, hcast, hcast2, pyGet_natCast, pyGet_natCast,
      pyGet_natCast, rat_default]
    show (a.target_OG.gravity_pts * a.postboil_volume -
        (totalSugars a.runnings).getD (k - 1) 0) /
        ((totalSugars a.runnings).getD k 0 - (totalSugars a.runnings).getD (k - 1) 0) *
        (a.runnings.getD (k - 1) default).volume = _
    rw [hsucc, wortSugar]
    rw [show (totalSugars a.runnings).getD (k - 1) 0 +
        (a.runnings.getD (k - 1) default).gravity.gravity_pts *
          (a.runnings.getD (k - 1) default).volume -
        (totalSugars a.runnings).getD (k - 1) 0 =
        (a.runnings.getD (k - 1) default).gravity.gravity_pts *
          (a.runnings.getD (k - 1) default).volume from by ring]
    rw [div_mul_eq_mul_div]
    exact mul_div_mul_right _ _ hv0
  have hu : gravityU a (k : ℤ) = lastRunningVolume (toPlanArgs a) ((k : ℤ) - 1) := by
    rw [hu_form, hlrv]
  -- positivity of the fractional volume
  have hu_pos : 0 < gravityU a (k : ℤ) := by
    rw [hu_form]
    have hS := hminR (k - 1) (by omega)
    exact div_pos (by linarith) hwk.1
  -- the gravity.py feasibility check passes
  have hlastmem : (totalSugars a.runnings).getLastD 0 ∈ totalSugars a.runnings := by
    rw [totalSugars_getLastD_eq_getD]
    exact getD_mem_of_lt (by rw [totalSugars_length]; omega)
  have hlast_ge : a.target_OG.gravity_pts * a.postboil_volume ≤
      (totalSugars a.runnings).getLastD 0 := by
    rw [totalSugars_getLastD_eq_getD]
    have hmono := totalSugars_mono a.runnings (fun w hw => le_of_lt (hws w hw)) hkn le_rfl
    linarith
  have hfeasG : ¬ maxGravity a < preboilGravity a := by
    rw [maxGravity, totalGravities_eq, from_sg_eq_ofPoints _ (hnm2 _ hlastmem), hpg,
      ofPoints_lt_ofPoints, div_lt_div_iff_of_pos_right hpre]
    exact not_lt.mpr hlast_ge
  -- the gravity.py crossing search finds index k
  have hp : (fun t => decide (preboilGravity a < Gravity.from_sg (t / a.preboil_volume)))
      ((totalSugars a.runnings).getD k 0) = true := by
    simp only [decide_eq_true_eq]
    rw [from_sg_eq_ofPoints _ (hnm2 _ (getD_mem_of_lt hklt)), hpg, ofPoints_lt_ofPoints,
      div_lt_div_iff_of_pos_right hpre]
    exact hcrossG
  have hm : ∀ j, j < k →
      (fun t => decide (preboilGravity a < Gravity.from_sg (t / a.preboil_volume)))
        ((totalSugars a.runnings).getD j 0) = false := by
    intro j hj
    simp only [decide_eq_false_iff_not]
    rw [from_sg_eq_ofPoints _ (hnm2 _ (getD_mem_of_lt (by omega))), hpg,
      ofPoints_lt_ofPoints, div_lt_div_iff_of_pos_right hpre]
    exact not_lt.mpr (le_of_lt (hminR j hj))
  obtain ⟨hfind, hidx⟩ :=
    find?_min_spec (fun t => decide (preboilGravity a < Gravity.from_sg (t / a.preboil_volume)))
      (totalSugars a.runnings) k hklt hp hm
  -- the produced volume list, before and after zero filtering
  have hvols : gravityVolumes a (k : ℤ) =
      (a.runnings.take (k - 1)).map WortData.volume ++ [gravityU a (k : ℤ)] ++
        List.replicate (a.runnings.length - k) 0 := by
    rw [gravityVolumes, hcast, pySlice_natCast,
      show ((k : ℤ)).toNat = k by omega]
  have hfilter : (gravityVolumes a (k : ℤ)).filter (fun v => decide (v ≠ 0)) =
      planVolumes (toPlanArgs a) ((k : ℤ) - 1) := by
    rw [hvols, List.filter_append, List.filter_append]
    have h1 : ((a.runnings.take (k - 1)).map WortData.volume).filter
        (fun v => decide (v ≠ 0)) = (a.runnings.take (k - 1)).map WortData.volume := by
      rw [List.filter_eq_self]
      intro x hx
      obtain ⟨w, hw, rfl⟩ := List.mem_map.mp hx
      have := (hlots w (List.mem_of_mem_take hw)).2
      simp [ne_of_gt this]
    have h2 : ([gravityU a (k : ℤ)]).filter (fun v => decide (v ≠ 0)) =
        [gravityU a (k : ℤ)] := by
      rw [List.filter_eq_self]
      intro x hx
      rw [List.mem_singleton] at hx
      subst hx
      simp [ne_of_gt hu_pos]
    have h3 : (List.replicate (a.runnings.length - k) (0 : ℚ)).filter
        (fun v => decide (v ≠ 0)) = [] := by
      rw [List.filter_eq_nil_iff]
      intro x hx
      rw [List.eq_of_mem_replicate hx]
      simp
    rw [h1, h2, h3, List.append_nil, planVolumes, hcast, pySlice_natCast, hu, hcast]
    rfl
  have hsums : (gravityVolumes a (k : ℤ)).sum =
      runningVolume (toPlanArgs a) ((k : ℤ) - 1) := by
    rw [hvols, List.sum_append, List.sum_append, List.sum_replicate, smul_zero,
      List.sum_singleton, runningVolume, hcast, pyGet_natCast, rat_default,
      show (toPlanArgs a).runnings = a.runnings from rfl,
      totalVolumes_getD a.runnings (k - 1) (by omega), List.map_take, hu, hcast]
    ring
  -- the gravity.py outcome
  have hmain : gravityMain a = some (.plan (planVolumes (toPlanArgs a) ((k : ℤ) - 1))
      (a.preboil_volume - runningVolume (toPlanArgs a) ((k : ℤ) - 1))) := by
    simp only [gravityMain]
    rw [if_neg hfeasG, totalGravities_eq]
    simp only [hfind]
    rw [hidx, hfilter, hsums]
  refine ⟨hu, hmain, ?_⟩
  -- the runnings.py outcome under the same crossing
  intro hcap
  have hlrR : lastRunning (toPlanArgs a) = some ((k : ℤ) - 1) :=
    lastRunning_spec (toPlanArgs a) k hkn (le_of_lt hcrossG) hminR
  have hfeasR : ¬ (totalSugars a.runnings).getLastD 0 < neededSugar (toPlanArgs a) :=
    not_lt.mpr hlast_ge
  have hrm := runningsMain_plan_eq (toPlanArgs a) ((k : ℤ) - 1) hfeasR hlrR hcap
  rw [hrm, planVolumes_sum (toPlanArgs a) k hk1 hkn]
  rfl

/-- The two-lot input as a `gravity.py` run (post-boil volume 5 gal,
`gravity.py`'s default boil-off rate 1.7). -/
def exGrav : GravArgs :=
  ⟨[⟨3, Gravity.ofPoints 20⟩, ⟨2, Gravity.ofPoints 10⟩], Gravity.ofPoints 14, 11/2, 5, 17/10, 60⟩

/-- Witness for C4 at the concrete two-lot input (`k = 2`). -/
theorem C4_witness :
    gravityU exGrav ((2 : ℕ) : ℤ) =
      lastRunningVolume (toPlanArgs exGrav) (((2 : ℕ) : ℤ) - 1) ∧
    gravityMain exGrav = some (.plan (planVolumes (toPlanArgs exGrav) (((2 : ℕ) : ℤ) - 1))
      (exGrav.preboil_volume - runningVolume (toPlanArgs exGrav) (((2 : ℕ) : ℤ) - 1))) ∧
    (¬ exGrav.preboil_volume < runningVolume (toPlanArgs exGrav) (((2 : ℕ) : ℤ) - 1) →
      runningsMain (toPlanArgs exGrav) =
        some (.plan (planVolumes (toPlanArgs exGrav) (((2 : ℕ) : ℤ) - 1))
          (exGrav.preboil_volume - runningVolume (toPlanArgs exGrav) (((2 : ℕ) : ℤ) - 1)))) :=
  C4_variant_equivalence exGrav 2
    (by norm_num [exGrav])
    (by
      intro w hw
      simp only [exGrav, List.mem_cons, List.mem_singleton] at hw
      rcases hw with rfl | rfl | h
      · norm_num [Gravity.gravity_pts, Gravity.ofPoints]
      · norm_num [Gravity.gravity_pts, Gravity.ofPoints]
      · simp at h)
    (by norm_num)
    (by norm_num [exGrav])
    (by
      intro j hj
      interval_cases j <;>
        norm_num [exGrav, totalSugars, pyAccumulate, wortSugar, Gravity.gravity_pts,
          Gravity.ofPoints, List.getD])
    (by norm_num [exGrav, totalSugars, pyAccumulate, wortSugar, Gravity.gravity_pts,
      Gravity.ofPoints, List.getD])
    (by norm_num [exGrav, Gravity.gravity_pts, Gravity.ofPoints])
    (by
      intro t ht
      norm_num [exGrav, totalSugars, pyAccumulate, wortSugar, Gravity.gravity_pts,
        Gravity.ofPoints] at ht
      rcases ht with rfl | rfl | rfl <;> norm_num [exGrav])

end Brewtools
